import Mathlib

/-!
Verification of the disaster-preparedness RAG pipeline.

This file gives a shallow embedding of the core of the repository
(`process_embeddings.py` and `app.py`) and proves or refutes the frozen
claims about it.  Python strings are modelled as `List Char`, machine
reals carried in embedding vectors are opaque to every claim and are
modelled by a type parameter, exceptions are modelled by `Except`/`Option`,
and the unbounded `while` loop of `DocumentProcessor.chunk_text` is
modelled with explicit fuel (`none` = non-termination).
-/

/-! ## Python string primitives -/

/-- Python slice `l[s:e]` for `0 ≤ s ≤ e` (both ends clamped to the list). -/
def pySlice (l : List Char) (s e : Nat) : List Char :=
  (l.take e).drop s

/-- Whitespace characters removed by Python `str.strip()` (ASCII part:
space, tab, newline, carriage return, vertical tab, form feed; the
Unicode-only space characters never occur in the inputs considered here). -/
def isPySpace (c : Char) : Bool :=
  c = ' ' || c = '\t' || c = '\n' || c = '\r' || c = Char.ofNat 11 || c = Char.ofNat 12

/-- Python `str.strip()`: drop whitespace from both ends. -/
def pyStrip (l : List Char) : List Char :=
  ((l.dropWhile isPySpace).reverse.dropWhile isPySpace).reverse

/-- Python `str.rfind(c)`: index of the last occurrence of `c`, `-1` if absent. -/
def rfindI (l : List Char) (c : Char) : Int :=
  l.enum.foldl (fun acc p => if p.2 = c then (p.1 : Int) else acc) (-1)

/-! ## `DocumentProcessor.chunk_text` (process_embeddings.py lines 28-61) -/

/-- Smallest `k` with `n / 2 ^ k < 2 ^ 53`, by fuel-counted halving
(any fuel of at least `log2 n` steps gives the same answer; callers pass
`n` itself, which is always enough). -/
def normShift : Nat → Nat → Nat
  | 0, _ => 0
  | f + 1, n => if n < 2 ^ 53 then 0 else normShift f (n / 2) + 1

/-- The IEEE-754 double product `s * 0.7`, scaled by `2 ^ 53`.  The double
nearest `0.7` is `6305039478318694 / 2 ^ 53`; the exact integer product is
rounded to 53 significant bits (round to nearest, ties to even), so the
Python float `s * 0.7` equals `dblMul07 s / 2 ^ 53` exactly. -/
def dblMul07 (s : Nat) : Nat :=
  let n := s * 6305039478318694
  if n < 2 ^ 53 then n
  else
    let sh := normShift n n
    let q := n / 2 ^ sh
    let r := n % 2 ^ sh
    let half := 2 ^ (sh - 1)
    let q' := if half < r ∨ (r = half ∧ q % 2 = 1) then q + 1 else q
    q' * 2 ^ sh

/-- Sentence-boundary truncation applied to a window that does not reach the
end of the text (lines 43-50): find the last `.`/`!`/`?` and cut there when
it lies past `0.7 * chunk_size` into the window.  The comparison
`last_sentence_end > chunk_size * 0.7` is between a Python int and a Python
float and is exact; it is modelled by the exact integer comparison
`last_sentence_end * 2 ^ 53 > dblMul07 chunk_size`. -/
def sentenceCut (window : List Char) (chunk_size : Nat) : List Char :=
  let last_period := rfindI window '.'
  let last_exclaim := rfindI window '!'
  let last_question := rfindI window '?'
  let last_sentence_end := max last_period (max last_exclaim last_question)
  if last_sentence_end * 2 ^ 53 > (dblMul07 chunk_size : Int) then
    window.take (last_sentence_end + 1).toNat
  else
    window

/-- The `while start < len(text)` loop of `chunk_text` (lines 35-59),
instrumented to also return the window start of each produced chunk.  Each
list entry is `(start, chunk)` where `chunk` is the window after sentence
truncation and before `strip()`.  The loop is fueled; `none` models the
non-terminating executions (which Python reaches whenever
`overlap ≥ chunk_size` and the text is non-empty). -/
def chunkLoop (text : List Char) (chunk_size overlap : Nat) :
    Nat → Nat → Option (List (Nat × List Char))
  | _, 0 => none
  | start, fuel + 1 =>
    if start < text.length then
      let window := pySlice text start (start + chunk_size)
      let chunk :=
        if start + chunk_size < text.length then sentenceCut window chunk_size
        else window
      let next := start + chunk_size - overlap
      if text.length ≤ next then some [(start, chunk)]
      else (chunkLoop text chunk_size overlap next fuel).map (fun rest => (start, chunk) :: rest)
    else some []

/-- `DocumentProcessor.chunk_text(text, chunk_size, overlap)`: each chunk is
appended as `chunk.strip()` (line 52) and the final list keeps only the
chunks with `len(chunk.strip()) > 50` (line 61).  `none` models
non-termination of the Python loop. -/
def chunk_text (text : String) (chunk_size overlap : Nat) : Option (List String) :=
  (chunkLoop text.data chunk_size overlap 0 (text.data.length + 1)).map
    (fun ps =>
      ((ps.map (fun p => pyStrip p.2)).filter (fun c => 50 < (pyStrip c).length)).map
        (fun c => String.mk c))

/-- The underlying spans `(start, start + length)` of the chunks returned by
`chunk_text` — the interval of the input each returned chunk was cut from,
measured before `strip()` (the most generous reading). -/
def chunk_spans (text : String) (chunk_size overlap : Nat) : Option (List (Nat × Nat)) :=
  (chunkLoop text.data chunk_size overlap 0 (text.data.length + 1)).map
    (fun ps =>
      (ps.filter (fun p => 50 < (pyStrip (pyStrip p.2)).length)).map
        (fun p => (p.1, p.1 + p.2.length)))

/-! ## UUID version 5 (`uuid.uuid5`), built on a full SHA-1

`_upload_chunks_local` and `_upload_chunks_qdrant` both compute
`str(uuid.uuid5(uuid.NAMESPACE_URL, f"{doc['url']}#{i}"))` (lines 141-142
and 168-169).  The algorithm is embedded here in full: UTF-8 encode the
name, SHA-1 the namespace bytes followed by the name bytes, keep the first
16 digest bytes, overwrite the version and variant bits, and render as a
lower-case hyphenated hex string.  32-bit machine arithmetic is modelled
on `Nat` with explicit reduction modulo `2 ^ 32`. -/

/-- UTF-8 encoding of one character. -/
def utf8Char (c : Char) : List Nat :=
  let n := c.toNat
  if n < 128 then [n]
  else if n < 2048 then [192 + n / 64, 128 + n % 64]
  else if n < 65536 then [224 + n / 4096, 128 + n / 64 % 64, 128 + n % 64]
  else [240 + n / 262144, 128 + n / 4096 % 64, 128 + n / 64 % 64, 128 + n % 64]

/-- UTF-8 encoding of a string, as a byte list. -/
def utf8Bytes (s : String) : List Nat :=
  s.data.foldr (fun c acc => utf8Char c ++ acc) []

/-- Combine two naturals bit by bit over `k` low bits. -/
def bitZip (f : Bool → Bool → Bool) : Nat → Nat → Nat → Nat
  | 0, _, _ => 0
  | k + 1, x, y =>
    (if f (x % 2 = 1) (y % 2 = 1) then 1 else 0) + 2 * bitZip f k (x / 2) (y / 2)

/-- 32-bit exclusive or. -/
def xor32 (x y : Nat) : Nat := bitZip (fun a b => a != b) 32 x y

/-- 32-bit and. -/
def and32 (x y : Nat) : Nat := bitZip (fun a b => a && b) 32 x y

/-- 32-bit or. -/
def or32 (x y : Nat) : Nat := bitZip (fun a b => a || b) 32 x y

/-- 32-bit complement (for `x < 2 ^ 32`). -/
def not32 (x : Nat) : Nat := 4294967295 - x

/-- 32-bit left rotation by `n` (for `x < 2 ^ 32`, `n ≤ 32`). -/
def rotl32 (n x : Nat) : Nat := x * 2 ^ n % 2 ^ 32 + x / 2 ^ (32 - n)

/-- Big-endian byte encoding of `n` on `k` bytes. -/
def beBytes : Nat → Nat → List Nat
  | 0, _ => []
  | k + 1, n => beBytes k (n / 256) ++ [n % 256]

/-- Group a byte list into 64-byte blocks.  The recursion is structured on
an explicit fuel so that the kernel can evaluate it; a fuel of `l.length`
is always sufficient since every step consumes a non-empty prefix. -/
def group64 : Nat → List Nat → List (List Nat)
  | 0, _ => []
  | _, [] => []
  | f + 1, l => l.take 64 :: group64 f (l.drop 64)

/-- Big-endian 32-bit words from a byte list. -/
def bytesToWords : List Nat → List Nat
  | b0 :: b1 :: b2 :: b3 :: rest =>
    (b0 * 16777216 + b1 * 65536 + b2 * 256 + b3) :: bytesToWords rest
  | _ => []

/-- SHA-1 message-schedule extension, keeping the schedule in reverse
(most recent word first): `w[t] = rotl1 (w[t-3] ^ w[t-8] ^ w[t-14] ^ w[t-16])`. -/
def sha1ExtendRev : Nat → List Nat → List Nat
  | 0, ws => ws
  | k + 1, ws =>
    let wv := rotl32 1 (xor32 (xor32 (ws.getD 2 0) (ws.getD 7 0))
      (xor32 (ws.getD 13 0) (ws.getD 15 0)))
    sha1ExtendRev k (wv :: ws)

/-- The five 32-bit working registers of SHA-1. -/
structure SHA1S where
  a : Nat
  b : Nat
  c : Nat
  d : Nat
  e : Nat
deriving DecidableEq

/-- The SHA-1 round function. -/
def sha1F (t b c d : Nat) : Nat :=
  if t < 20 then or32 (and32 b c) (and32 (not32 b) d)
  else if t < 40 then xor32 b (xor32 c d)
  else if t < 60 then or32 (or32 (and32 b c) (and32 b d)) (and32 c d)
  else xor32 b (xor32 c d)

/-- The SHA-1 round constants. -/
def sha1K (t : Nat) : Nat :=
  if t < 20 then 0x5A827999
  else if t < 40 then 0x6ED9EBA1
  else if t < 60 then 0x8F1BBCDC
  else 0xCA62C1D6

/-- Run the 80 SHA-1 rounds over an indexed schedule. -/
def sha1Rounds (s0 : SHA1S) (sched : List (Nat × Nat)) : SHA1S :=
  sched.foldl
    (fun s tw =>
      let temp :=
        (rotl32 5 s.a + sha1F tw.1 s.b s.c s.d + s.e + sha1K tw.1 + tw.2) % 2 ^ 32
      ⟨temp, s.a, rotl32 30 s.b, s.c, s.d⟩)
    s0

/-- Compress one 512-bit block (given as 16 words) into the running state. -/
def sha1Block (h : SHA1S) (block : List Nat) : SHA1S :=
  let sched := ((sha1ExtendRev 64 block.reverse).reverse).enum
  let s := sha1Rounds h sched
  ⟨(h.a + s.a) % 2 ^ 32, (h.b + s.b) % 2 ^ 32, (h.c + s.c) % 2 ^ 32,
    (h.d + s.d) % 2 ^ 32, (h.e + s.e) % 2 ^ 32⟩

/-- SHA-1 padding: `0x80`, zeros to 56 mod 64, then the bit length on 8 bytes. -/
def sha1Pad (msg : List Nat) : List Nat :=
  msg ++ 128 :: List.replicate ((119 - msg.length % 64) % 64) 0 ++ beBytes 8 (8 * msg.length)

/-- SHA-1 of a byte list, as a 20-byte digest. -/
def sha1 (msg : List Nat) : List Nat :=
  let blocks := (group64 (sha1Pad msg).length (sha1Pad msg)).map bytesToWords
  let h := blocks.foldl sha1Block
    ⟨0x67452301, 0xEFCDAB89, 0x98BADCFE, 0x10325476, 0xC3D2E1F0⟩
  beBytes 4 h.a ++ beBytes 4 h.b ++ beBytes 4 h.c ++ beBytes 4 h.d ++ beBytes 4 h.e

/-- Lower-case hex digit. -/
def hexDigit (n : Nat) : Char := if n < 10 then Char.ofNat (48 + n) else Char.ofNat (87 + n)

/-- Lower-case hex rendering of a byte list. -/
def bytesHex (bs : List Nat) : List Char :=
  bs.foldr (fun b acc => hexDigit (b / 16 % 16) :: hexDigit (b % 16) :: acc) []

/-- The byte form of `uuid.NAMESPACE_URL` (`6ba7b811-9dad-11d1-80b4-00c04fd430c8`). -/
def namespaceURL : List Nat :=
  [0x6b, 0xa7, 0xb8, 0x11, 0x9d, 0xad, 0x11, 0xd1,
   0x80, 0xb4, 0x00, 0xc0, 0x4f, 0xd4, 0x30, 0xc8]

/-- The byte form of `uuid.NAMESPACE_DNS` (`6ba7b810-9dad-11d1-80b4-00c04fd430c8`),
used only to validate the embedding against the reference value from the
`uuid` module documentation. -/
def namespaceDNS : List Nat :=
  [0x6b, 0xa7, 0xb8, 0x10, 0x9d, 0xad, 0x11, 0xd1,
   0x80, 0xb4, 0x00, 0xc0, 0x4f, 0xd4, 0x30, 0xc8]

/-- `str(uuid.uuid5(ns, name))`: SHA-1 of namespace bytes plus UTF-8 name,
first 16 bytes, version nibble forced to 5 and variant bits to `10`,
rendered `8-4-4-4-12` in lower-case hex. -/
def uuid5 (ns : List Nat) (name : String) : String :=
  let d := (sha1 (ns ++ utf8Bytes name)).take 16
  let b := d.take 6 ++
    [d.getD 6 0 % 16 + 80, d.getD 7 0, d.getD 8 0 % 64 + 128] ++ d.drop 9
  String.mk
    (bytesHex (b.take 4) ++ '-' :: bytesHex ((b.drop 4).take 2) ++
      '-' :: bytesHex ((b.drop 6).take 2) ++ '-' :: bytesHex ((b.drop 8).take 2) ++
      '-' :: bytesHex (b.drop 10))

/-! ## Data model (process_embeddings.py, app.py) -/

/-- A scraped document record (the acquisition collaborator's output shape). -/
structure Doc where
  url : String
  title : String
  source : String
  scraped_date : String
  type : String
  content : String
deriving DecidableEq

/-- The payload stored with every point (lines 147-157 / 174-184). -/
structure Payload where
  content : String
  title : String
  source : String
  scraped_date : String
  type : String
  url : String
  chunk_index : Nat
  total_chunks : Nat
  original_id : String
deriving DecidableEq

/-- A stored point.  The embedding vector entries are Python floats that no
claim ever computes with, so the vector type is an opaque parameter `V`. -/
structure Point (V : Type) where
  id : String
  vector : V
  payload : Payload
deriving DecidableEq

/-- `QdrantManager._upload_chunks_local` (lines 137-161): append one point
per `(chunk, embedding)` pair of `enumerate(zip(chunks, embeddings))` to the
in-memory buffer `self.embeddings_data`. -/
def upload_chunks_local {V : Type} (doc : Doc) (chunks : List String) (embeddings : List V)
    (embeddings_data : List (Point V)) : List (Point V) :=
  embeddings_data ++
    (chunks.zip embeddings).enum.map (fun p =>
      let point_id_string := doc.url ++ "#" ++ toString p.1
      { id := uuid5 namespaceURL point_id_string
        vector := p.2.2
        payload :=
          { content := p.2.1
            title := doc.title
            source := doc.source
            scraped_date := doc.scraped_date
            type := doc.type
            url := doc.url
            chunk_index := p.1
            total_chunks := chunks.length
            original_id := point_id_string } })

/-- `QdrantManager._upload_chunks_qdrant` (lines 163-196): the list of
`PointStruct` values handed to `client.upsert`. -/
def upload_chunks_qdrant {V : Type} (doc : Doc) (chunks : List String) (embeddings : List V) :
    List (Point V) :=
  (chunks.zip embeddings).enum.map (fun p =>
    let point_id_string := doc.url ++ "#" ++ toString p.1
    { id := uuid5 namespaceURL point_id_string
      vector := p.2.2
      payload :=
        { content := p.2.1
          title := doc.title
          source := doc.source
          scraped_date := doc.scraped_date
          type := doc.type
          url := doc.url
          chunk_index := p.1
          total_chunks := chunks.length
          original_id := point_id_string } })

/-- `QdrantManager.upload_chunks` (lines 126-135) in `LocalFallback` mode:
on a chunks/embeddings length mismatch it logs an error and returns with the
buffer unchanged; otherwise it dispatches to the local path. -/
def upload_chunks {V : Type} (doc : Doc) (chunks : List String) (embeddings : List V)
    (embeddings_data : List (Point V)) : List (Point V) :=
  if chunks.length ≠ embeddings.length then embeddings_data
  else upload_chunks_local doc chunks embeddings embeddings_data

/-! ## The ingestion pipeline (`main`, process_embeddings.py lines 206-249) -/

/-- An embedding call: one vector per input text, or a raised exception
(`Except.error`) when the model is unavailable. -/
def EmbedFn (V : Type) : Type := List String → Except String (List V)

/-- `processor.chunk_text(doc["content"])` as called by `main` (line 234),
with the constructor defaults `chunk_size=500, overlap=50` — parameters for
which the loop always terminates, so the fuel default is never hit. -/
def chunk_text_default (text : String) : List String :=
  (chunk_text text 500 50).getD []

/-- The per-document loop of `main` (lines 229-243), in `LocalFallback`
mode.  A document with no chunks is skipped (line 235-237); the embedding
call has no surrounding `try`, so a raised `EmbeddingFailure` propagates and
aborts the whole run; `upload_chunks` then extends the buffer and the chunk
counter is increased. -/
def ingest_loop {V : Type} (embed : EmbedFn V) :
    List Doc → List (Point V) → Nat → Except String (List (Point V) × Nat)
  | [], embeddings_data, total_chunks => .ok (embeddings_data, total_chunks)
  | doc :: rest, embeddings_data, total_chunks =>
    let chunks := chunk_text_default doc.content
    if chunks = [] then ingest_loop embed rest embeddings_data total_chunks
    else
      match embed chunks with
      | .error e => .error e
      | .ok chunk_embeddings =>
        ingest_loop embed rest
          (upload_chunks doc chunks chunk_embeddings embeddings_data)
          (total_chunks + chunks.length)

/-- The `LocalFallback` state of `QdrantManager`: the in-memory buffer
`self.embeddings_data` and the contents of the local storage file (`none`
when the file has not been written). -/
structure LocalStore (V : Type) where
  embeddings_data : List (Point V)
  file : Option (List (Point V))

/-- `QdrantManager.save_local_storage` (lines 198-204): write the buffer to
the local file, but only in local-storage mode and only when the buffer is
non-empty. -/
def save_local_storage {V : Type} (use_local_storage : Bool) (s : LocalStore V) :
    LocalStore V :=
  if use_local_storage && !s.embeddings_data.isEmpty then
    { s with file := some s.embeddings_data }
  else s

/-- `main` (lines 206-249) in `LocalFallback` mode: `create_collection`
resets the buffer to `[]` (lines 99-103), the document loop runs, and the
function returns after logging totals — it never calls
`save_local_storage`, so the file is left exactly as it was. -/
def ingest_main {V : Type} (embed : EmbedFn V) (documents : List Doc) (s0 : LocalStore V) :
    Except String (LocalStore V × Nat) :=
  match ingest_loop embed documents [] 0 with
  | .error e => .error e
  | .ok (embeddings_data, total_chunks) =>
    .ok ({ embeddings_data := embeddings_data, file := s0.file }, total_chunks)

/-! ## The query side (`app.py`) -/

/-- A raw search hit: the payload is a Python dict read back with
`payload.get(key, '')`, so each field may be absent; the cosine score is a
float no claim computes with, modelled opaquely as `Int`. -/
structure Hit where
  content : Option String
  source : Option String
  title : Option String
  url : Option String
  score : Int
deriving DecidableEq

/-- The context dict built for one search result (lines 85-93). -/
structure Ctx where
  content : String
  source : String
  title : String
  url : String
  score : Int
deriving DecidableEq

/-- Formatting of one hit (lines 86-93) with `payload.get(key, '')` defaults. -/
def hitToCtx (h : Hit) : Ctx :=
  { content := h.content.getD ""
    source := h.source.getD ""
    title := h.title.getD ""
    url := h.url.getD ""
    score := h.score }

/-- `DisasterRAGApp.retrieve_context` (lines 69-100).  The query embedding
and the Qdrant search are both inside one `try`; any raised exception is
caught, shown with `st.error` (the second component collects those
user-visible error banners) and turned into the return value `[]`. -/
def retrieve_context (query_embedding : Except String (List Int))
    (search : List Int → Except String (List Hit)) : List Ctx × List String :=
  match query_embedding with
  | .error e => ([], ["Error retrieving context: " ++ e])
  | .ok v =>
    match search v with
    | .error e => ([], ["Error retrieving context: " ++ e])
    | .ok results => (results.map hitToCtx, [])

/-- An LLM client: `invoke(prompt)` returns generated text or raises. -/
def LLMFn : Type := String → Except String String

/-- The `llm` attribute of `DisasterRAGApp` after `setup_clients`
(lines 39-67).  `none` models the attribute never having been assigned
(reading it raises `AttributeError`), `some none` a falsy assigned value
(unreachable in this code), `some (some f)` a constructed `ChatGroq` client.
`__init__` (lines 33-37) sets `embedding_model`, `qdrant_client` and
`groq_client` to `None` but never touches `llm`; `setup_clients` assigns
`llm` only in the branch where a usable key is present. -/
def setup_clients (mkLLM : String → LLMFn) (groq_api_key : Option String) :
    Option (Option LLMFn) :=
  match groq_api_key with
  | some k =>
    if k ≠ "" ∧ k ≠ "your_groq_api_key_here" then some (some (mkLLM k)) else none
  | none => none

/-- The context block assembled by `generate_response` (lines 108-111):
source, title and the first 500 characters of each content. -/
def context_text (context : List Ctx) : String :=
  String.intercalate "\n\n"
    (context.map (fun ctx =>
      "Source: " ++ ctx.source ++ "\nTitle: " ++ ctx.title ++ "\nContent: " ++
        String.mk (ctx.content.data.take 500) ++ "..."))

/-- The fixed prompt template of `generate_response` (lines 114-121). -/
def build_prompt (query : String) (context : List Ctx) : String :=
  "You are a Disaster Preparedness & Response Assistant. Use ONLY context from FEMA, CDC, NOAA, Red Cross, WHO, UNDRR. If information is not found in the provided context, say \"I don't have that information from trusted sources.\"\n\nContext:\n" ++
    context_text context ++ "\n\nQuestion: " ++ query ++ "\n\nAnswer:"

/-- `DisasterRAGApp.generate_response` (lines 102-132).  Reading `self.llm`
when the attribute was never assigned raises `AttributeError`
(`Except.error`); a falsy `llm` returns the configuration message; otherwise
the prompt is submitted and an exception from `invoke` is caught and
returned as the answer text. -/
def generate_response (llm : Option (Option LLMFn)) (query : String) (context : List Ctx) :
    Except String String :=
  match llm with
  | none => .error "AttributeError: 'DisasterRAGApp' object has no attribute 'llm'"
  | some none => .ok "Groq API key not configured. Please set GROQ_API_KEY in your .env file."
  | some (some invoke) =>
    match invoke (build_prompt query context) with
    | .ok response => .ok response
    | .error e => .ok ("Error generating response: " ++ e)

/-- What one query renders as (lines 179-211). -/
inductive QueryOutcome where
  | answered : String → QueryOutcome
  | noInfo : QueryOutcome
  | raised : String → QueryOutcome
deriving DecidableEq

/-- The top-level query flow (lines 179-211): retrieve contexts; an empty
list renders the "no relevant information found" warning; a non-empty list
is passed to `generate_response`, whose uncaught exceptions crash the
rendering.  The second component carries the `st.error` banners shown by
`retrieve_context`. -/
def query_flow (query_embedding : Except String (List Int))
    (search : List Int → Except String (List Hit)) (llm : Option (Option LLMFn))
    (query : String) : QueryOutcome × List String :=
  let r := retrieve_context query_embedding search
  if r.1.isEmpty then (.noInfo, r.2)
  else
    match generate_response llm query r.1 with
    | .ok response => (.answered response, r.2)
    | .error e => (.raised e, r.2)

/-! ## Lemmas about the chunking loop -/

theorem chunkLoop_isSome {text : List Char} {chunk_size overlap : Nat}
    (h : overlap < chunk_size) :
    ∀ fuel start, text.length - start < fuel →
      ∃ l, chunkLoop text chunk_size overlap start fuel = some l := by
  intro fuel
  induction fuel with
  | zero => intro start hf; omega
  | succ f ih =>
    intro start hf
    rw [chunkLoop]
    by_cases hs : start < text.length
    · simp only [hs, if_true]
      by_cases hn : text.length ≤ start + chunk_size - overlap
      · simp [hn]
      · simp only [hn, if_false]
        obtain ⟨l, hl⟩ := ih (start + chunk_size - overlap) (by omega)
        exact ⟨_, by rw [hl]; rfl⟩
    · simp [hs]

theorem drop_take_append_drop (l : List Char) (s n : Nat) (h : s ≤ n) :
    (l.take n).drop s ++ l.drop n = l.drop s := by
  rw [List.drop_take]
  have h2 : l.drop n = (l.drop s).drop (n - s) := by
    rw [List.drop_drop]
    congr 1
    omega
  rw [h2, List.take_append_drop]

theorem chunkLoop_tiling {text : List Char} {chunk_size overlap : Nat}
    (h : overlap < chunk_size) :
    ∀ fuel start, text.length - start < fuel →
      ∃ ps, chunkLoop text chunk_size overlap start fuel = some ps ∧
        (ps.map (fun p =>
          pySlice text p.1 (min (p.1 + (chunk_size - overlap)) text.length))).flatten
          = text.drop start := by
  intro fuel
  induction fuel with
  | zero => intro start hf; omega
  | succ f ih =>
    intro start hf
    rw [chunkLoop]
    by_cases hs : start < text.length
    · by_cases hn : text.length ≤ start + chunk_size - overlap
      · simp only [hs, if_true, hn]
        refine ⟨_, rfl, ?_⟩
        simp only [List.map_cons, List.map_nil, List.flatten_cons, List.flatten_nil,
          List.append_nil]
        rw [show min (start + (chunk_size - overlap)) text.length = text.length by omega]
        simp only [pySlice, List.take_length]
      · obtain ⟨ps, hps, hjoin⟩ := ih (start + chunk_size - overlap) (by omega)
        simp only [hs, if_true, hn, if_false, hps, Option.map_some']
        refine ⟨_, rfl, ?_⟩
        simp only [List.map_cons, List.flatten_cons]
        rw [show min (start + (chunk_size - overlap)) text.length
          = start + chunk_size - overlap by omega]
        rw [hjoin]
        simp only [pySlice]
        exact drop_take_append_drop text start (start + chunk_size - overlap) (by omega)
    · simp only [hs, if_false]
      refine ⟨[], rfl, ?_⟩
      simp only [List.map_nil, List.flatten_nil]
      exact (List.drop_eq_nil_of_le (by omega)).symm

theorem chunkLoop_covers {text : List Char} {chunk_size overlap : Nat}
    (h : overlap < chunk_size) :
    ∀ fuel start, text.length - start < fuel → ∀ i, start ≤ i → i < text.length →
      ∃ ps, chunkLoop text chunk_size overlap start fuel = some ps ∧
        ∃ p ∈ ps, p.1 ≤ i ∧ i < p.1 + chunk_size := by
  intro fuel
  induction fuel with
  | zero => intro start hf; omega
  | succ f ih =>
    intro start hf i hsi hil
    have hs : start < text.length := by omega
    rw [chunkLoop]
    by_cases hn : text.length ≤ start + chunk_size - overlap
    · simp only [hs, if_true, hn]
      refine ⟨_, rfl, ⟨(start, _), List.mem_singleton_self _, hsi, ?_⟩⟩
      omega
    · by_cases hi : i < start + chunk_size - overlap
      · obtain ⟨ps, hps⟩ :=
          @chunkLoop_isSome text chunk_size overlap h f (start + chunk_size - overlap)
            (by omega)
        simp only [hs, if_true, hn, if_false, hps, Option.map_some']
        refine ⟨_, rfl, ⟨(start, _), List.mem_cons_self _ _, hsi, ?_⟩⟩
        omega
      · obtain ⟨ps, hps, p, hp, h1, h2⟩ := ih (start + chunk_size - overlap) (by omega) i
          (by omega) hil
        simp only [hs, if_true, hn, if_false, hps, Option.map_some']
        exact ⟨_, rfl, ⟨p, List.mem_cons_of_mem _ hp, h1, h2⟩⟩

theorem pyStrip_eq (l : List Char) :
    pyStrip l = List.rdropWhile isPySpace (l.dropWhile isPySpace) := by
  simp [pyStrip, List.rdropWhile]

theorem pyStrip_length_le (l : List Char) : (pyStrip l).length ≤ l.length := by
  rw [pyStrip_eq]
  calc (List.rdropWhile isPySpace (l.dropWhile isPySpace)).length
      ≤ (l.dropWhile isPySpace).length :=
        (List.rdropWhile_prefix _ _).length_le
    _ ≤ l.length := (List.dropWhile_suffix _).length_le

theorem pyStrip_idem (l : List Char) : pyStrip (pyStrip l) = pyStrip l := by
  rw [pyStrip_eq, pyStrip_eq]
  have h1 : List.dropWhile isPySpace (List.rdropWhile isPySpace (l.dropWhile isPySpace))
      = List.rdropWhile isPySpace (l.dropWhile isPySpace) := by
    rw [List.dropWhile_eq_self_iff]
    intro hl
    have hm : 0 < (l.dropWhile isPySpace).length :=
      lt_of_lt_of_le hl (List.rdropWhile_prefix _ _).length_le
    have hget : (List.rdropWhile isPySpace (l.dropWhile isPySpace)).get ⟨0, hl⟩
        = (l.dropWhile isPySpace).get ⟨0, hm⟩ := by
      simp only [List.get_eq_getElem]
      exact (List.rdropWhile_prefix isPySpace (l.dropWhile isPySpace)).getElem hl
    rw [hget]
    exact List.dropWhile_get_zero_not _ _ hm
  rw [h1, List.rdropWhile_idempotent]

/-! ## Claims about chunking -/

/-- Claim C9: for every text and every `(size, overlap)` satisfying the
contract precondition `0 ≤ overlap < size`, `chunk_text` terminates and
returns a finite chunk sequence — the fueled loop never exhausts its fuel,
because each iteration advances the window start by `size - overlap > 0`. -/
theorem c9_chunk_text_terminates (text : String) (chunk_size overlap : Nat)
    (h : overlap < chunk_size) :
    ∃ l, chunk_text text chunk_size overlap = some l := by
  obtain ⟨ps, hps⟩ :=
    @chunkLoop_isSome text.data chunk_size overlap h (text.data.length + 1) 0 (by omega)
  exact ⟨_, by rw [chunk_text, hps]; rfl⟩

theorem c9_witness :
    (50 : Nat) < 500 ∧
      ∃ l, chunk_text "Prepare a kit. Store water. Have a plan." 500 50 = some l :=
  ⟨by decide, c9_chunk_text_terminates "Prepare a kit. Store water. Have a plan." 500 50
    (by decide)⟩

/-- The 600-character text that refutes claim C2: a sentence terminator at
index 400 (past `0.7 × 500 = 350`) truncates the first window's chunk to the
span `[0, 401)`, while the next window starts at `500 - 50 = 450`; the
characters at indices 401-449 lie in no returned chunk's span. -/
def t600 : String := String.mk (List.replicate 400 'a' ++ '.' :: List.replicate 199 'a')

set_option maxRecDepth 40000 in
/-- Claim C2, counterexample: on `t600` with `size = 500, overlap = 50` the
returned chunks' underlying spans are `[0, 401)` and `[450, 600)`, so the
character at index 420 is inside the text but inside no returned chunk's
span — `chunk_text` loses data. -/
theorem c2_counterexample :
    chunk_spans t600 500 50 = some [(0, 401), (450, 600)] ∧
    420 < t600.data.length ∧
    (∀ p ∈ [((0 : Nat), (401 : Nat)), ((450 : Nat), (600 : Nat))],
      ¬ (p.1 ≤ 420 ∧ 420 < p.2)) := by
  decide

/-- Claim C2 (amended): the loss-freedom holds at the window level, not the
chunk level.  For `overlap < size`, every character of the text lies inside
the window `[start, start + size)` of some loop iteration, and concatenating
each window's first `size - overlap` characters (the part not re-included as
overlap) reconstructs the text in order.  Characters can still be missing
from the returned chunks' spans: sentence-boundary truncation discards the
window tail after the cut, and the `> 50` length floor discards whole
chunks. -/
theorem c2_amended (text : String) (chunk_size overlap : Nat) (h : overlap < chunk_size) :
    ∃ ps, chunkLoop text.data chunk_size overlap 0 (text.data.length + 1) = some ps ∧
      (ps.map (fun p =>
        pySlice text.data p.1 (min (p.1 + (chunk_size - overlap)) text.data.length))).flatten
        = text.data ∧
      ∀ i < text.data.length, ∃ p ∈ ps, p.1 ≤ i ∧ i < p.1 + chunk_size := by
  obtain ⟨ps, hps, hjoin⟩ :=
    @chunkLoop_tiling text.data chunk_size overlap h (text.data.length + 1) 0 (by omega)
  refine ⟨ps, hps, by simpa using hjoin, ?_⟩
  intro i hi
  obtain ⟨ps', hps', p, hp, hp1, hp2⟩ :=
    @chunkLoop_covers text.data chunk_size overlap h (text.data.length + 1) 0 (by omega) i
      (by omega) hi
  rw [hps] at hps'
  obtain rfl : ps = ps' := by injection hps'
  exact ⟨p, hp, hp1, hp2⟩

theorem c2_amended_witness :
    (5 : Nat) < 20 ∧
    ∃ ps, chunkLoop "Prepare a kit. Store water.".data 20 5 0
        ("Prepare a kit. Store water.".data.length + 1) = some ps ∧
      (ps.map (fun p =>
        pySlice "Prepare a kit. Store water.".data p.1
          (min (p.1 + (20 - 5)) "Prepare a kit. Store water.".data.length))).flatten
        = "Prepare a kit. Store water.".data ∧
      ∀ i < "Prepare a kit. Store water.".data.length,
        ∃ p ∈ ps, p.1 ≤ i ∧ i < p.1 + 20 :=
  ⟨by decide, c2_amended "Prepare a kit. Store water." 20 5 (by decide)⟩

/-- The 50-character text that refutes claim C7: its single produced chunk
has length exactly 50, which the filter `len(chunk.strip()) > 50` drops. -/
def t50 : String := String.mk (List.replicate 50 'a')

set_option maxRecDepth 10000 in
/-- Claim C7, counterexample: on `t50` the loop produces exactly one chunk,
of length exactly 50 and untouched by `strip()`, yet `chunk_text` returns
the empty list — a produced chunk of length at least 50 is dropped, because
the floor in the code is exclusive (`> 50`), not inclusive. -/
theorem c7_counterexample :
    chunkLoop t50.data 500 50 0 (t50.data.length + 1)
      = some [(0, List.replicate 50 'a')] ∧
    (List.replicate 50 'a' : List Char).length = 50 ∧
    pyStrip (List.replicate 50 'a') = List.replicate 50 'a' ∧
    chunk_text t50 500 50 = some [] := by
  decide

/-- Claim C7 (amended): the floor is exclusive.  Every chunk returned by
`chunk_text` has length at least 51, and the returned list consists of
exactly the produced (stripped) chunks whose stripped length is strictly
greater than 50, in order — chunks of stripped length exactly 50 are
dropped. -/
theorem c7_amended (text : String) (chunk_size overlap : Nat) (l : List String)
    (h : chunk_text text chunk_size overlap = some l) :
    (∀ c ∈ l, 51 ≤ c.length) ∧
    ∃ ps, chunkLoop text.data chunk_size overlap 0 (text.data.length + 1) = some ps ∧
      l = ((ps.map (fun p => pyStrip p.2)).filter (fun c => 50 < (pyStrip c).length)).map
        (fun c => String.mk c) := by
  rw [chunk_text] at h
  cases hcl : chunkLoop text.data chunk_size overlap 0 (text.data.length + 1) with
  | none => rw [hcl] at h; cases h
  | some ps =>
    rw [hcl, Option.map_some'] at h
    obtain rfl : _ = l := Option.some.inj h
    refine ⟨?_, ps, rfl, rfl⟩
    intro c hc
    obtain ⟨c', hc', rfl⟩ := List.mem_map.mp hc
    have hfil : 50 < (pyStrip c').length := by
      simpa using (List.mem_filter.mp hc').2
    obtain ⟨x, _, rfl⟩ := List.mem_map.mp (List.mem_filter.mp hc').1
    have h2 : (pyStrip (pyStrip x.2)).length ≤ (pyStrip x.2).length :=
      pyStrip_length_le (pyStrip x.2)
    have h3 : (String.mk (pyStrip x.2)).length = (pyStrip x.2).length := rfl
    simp only at hfil
    omega

/-- The 60-character text used as the witness input for claim C7. -/
def t60 : String := String.mk (List.replicate 60 'a')

set_option maxRecDepth 10000 in
theorem c7_amended_witness :
    chunk_text t60 500 50 = some [String.mk (List.replicate 60 'a')] ∧
    ((∀ c ∈ [String.mk (List.replicate 60 'a')], 51 ≤ c.length) ∧
      ∃ ps, chunkLoop t60.data 500 50 0 (t60.data.length + 1) = some ps ∧
        [String.mk (List.replicate 60 'a')]
          = ((ps.map (fun p => pyStrip p.2)).filter
              (fun c => 50 < (pyStrip c).length)).map (fun c => String.mk c)) :=
  ⟨by decide, c7_amended t60 500 50 _ (by decide)⟩

/-- The 480-character text that refutes claim C8: it is shorter than the
window size 500, yet with `overlap = 100` the second window `[400, 480)`
produces a second chunk of length 80 that survives the filter. -/
def t480 : String := String.mk (List.replicate 480 'a')

set_option maxRecDepth 40000 in
/-- Claim C8, counterexample: `t480` is shorter than `size = 500` and
`overlap = 100 < size`, yet `chunk_text` returns two chunks, not at most
one. -/
theorem c8_counterexample :
    t480.length < 500 ∧ (100 : Nat) < 500 ∧
    ((chunk_text t480 500 100).getD []).length = 2 := by
  decide

theorem chunkLoop_tail_short {text : List Char} {chunk_size overlap : Nat}
    (h1 : overlap < chunk_size) (h2 : text.length < chunk_size) :
    ∀ fuel start, text.length - start < fuel →
      ∃ ps, chunkLoop text chunk_size overlap start fuel = some ps ∧
        ∀ p ∈ ps, p.2.length ≤ text.length - start := by
  intro fuel
  induction fuel with
  | zero => intro start hf; omega
  | succ f ih =>
    intro start hf
    rw [chunkLoop]
    by_cases hs : start < text.length
    · have hcut : ¬ (start + chunk_size < text.length) := by omega
      have hwlen : (pySlice text start (start + chunk_size)).length
          = text.length - start := by
        simp only [pySlice, List.length_drop, List.length_take]
        omega
      by_cases hn : text.length ≤ start + chunk_size - overlap
      · simp only [hs, if_true, hcut, if_false, hn]
        refine ⟨_, rfl, ?_⟩
        intro p hp
        rw [List.mem_singleton] at hp
        subst hp
        show (pySlice text start (start + chunk_size)).length ≤ text.length - start
        omega
      · obtain ⟨ps, hps, hbound⟩ := ih (start + chunk_size - overlap) (by omega)
        simp only [hs, if_true, hcut, if_false, hn, hps, Option.map_some']
        refine ⟨_, rfl, ?_⟩
        intro p hp
        rcases List.mem_cons.mp hp with hp | hp
        · subst hp
          show (pySlice text start (start + chunk_size)).length ≤ text.length - start
          omega
        · have := hbound p hp
          omega
    · simp only [hs, if_false]
      exact ⟨[], rfl, by simp⟩

/-- Claim C8 (amended): for text shorter than `size` and `overlap < size`
the first window covers the whole text untruncated, so — provided also
`overlap ≤ 51`, which makes every later window's chunk shorter than the
floor — `chunk_text` returns exactly the stripped text when its stripped
length exceeds 50 and nothing otherwise.  Hence at most one chunk, and zero
chunks exactly when the stripped length is at most 50 (the floor is
exclusive, so a text of stripped length exactly 50 also yields zero
chunks; and for `overlap ≥ 52` a second chunk can survive, as the
counterexample shows). -/
theorem c8_amended (text : String) (chunk_size overlap : Nat)
    (h1 : overlap < chunk_size) (h2 : text.length < chunk_size) (h3 : overlap ≤ 51) :
    chunk_text text chunk_size overlap
      = some (if 50 < (pyStrip text.data).length
          then [String.mk (pyStrip text.data)] else []) ∧
    ∀ l, chunk_text text chunk_size overlap = some l →
      l.length ≤ 1 ∧ (l = [] ↔ (pyStrip text.data).length ≤ 50) := by
  have hlen : text.data.length = text.length := rfl
  have hmain : chunk_text text chunk_size overlap
      = some (if 50 < (pyStrip text.data).length
          then [String.mk (pyStrip text.data)] else []) := by
    rw [chunk_text, chunkLoop]
    by_cases h0 : 0 < text.data.length
    · have hcut : ¬ (0 + chunk_size < text.data.length) := by omega
      have hwindow : pySlice text.data 0 (0 + chunk_size) = text.data := by
        simp only [pySlice, List.drop_zero]
        exact List.take_of_length_le (by omega)
      by_cases hn : text.data.length ≤ 0 + chunk_size - overlap
      · simp only [h0, if_true, hcut, if_false, hn, hwindow, Option.map_some',
          List.map_cons, List.map_nil, List.filter_cons, List.filter_nil,
          pyStrip_idem, decide_eq_true_eq]
        by_cases hc : 50 < (pyStrip text.data).length
        · simp [hc]
        · simp [hc]
      · obtain ⟨ps, hps, hbound⟩ :=
          @chunkLoop_tail_short text.data chunk_size overlap h1 (by omega)
            text.data.length (0 + chunk_size - overlap) (by omega)
        simp only [h0, if_true, hcut, if_false, hn, hwindow, hps, Option.map_some',
          List.map_cons, List.filter_cons, pyStrip_idem, decide_eq_true_eq]
        have hnil : ((ps.map (fun p => pyStrip p.2)).filter
            (fun c => decide (50 < (pyStrip c).length))) = [] := by
          rw [List.filter_eq_nil_iff]
          intro a ha
          obtain ⟨x, hx, rfl⟩ := List.mem_map.mp ha
          have hb := hbound x hx
          have hl1 := pyStrip_length_le x.2
          have hl2 := pyStrip_length_le (pyStrip x.2)
          simp only [decide_eq_true_eq, not_lt]
          omega
        rw [hnil]
        by_cases hc : 50 < (pyStrip text.data).length
        · simp [hc]
        · simp [hc]
    · simp only [h0, if_false, Option.map_some', List.map_nil, List.filter_nil]
      have hdata : text.data = [] := List.eq_nil_of_length_eq_zero (by omega)
      rw [hdata]
      simp [pyStrip]
  refine ⟨hmain, ?_⟩
  intro l hl
  rw [hmain] at hl
  obtain rfl := (Option.some.inj hl).symm
  by_cases hc : 50 < (pyStrip text.data).length
  · simp only [hc, if_true]
    constructor
    · simp
    · constructor
      · intro hcon
        exact absurd hcon (by simp)
      · intro hle
        exact absurd hle (by omega)
  · simp only [hc, if_false]
    constructor
    · simp
    · constructor
      · intro hnil
        omega
      · intro hle
        trivial

/-! ## Claims about point identity and payloads -/

theorem map_enum_fst_fun {α β : Type _} (l : List α) (f : Nat → β) :
    l.enum.map (fun p => f p.1) = (List.range l.length).map f := by
  rw [← List.enum_map_fst l, List.map_map]
  rfl

set_option maxRecDepth 10000 in
/-- The embedding of `uuid5` reproduces the reference value documented for
Python's `uuid` module: `uuid5(NAMESPACE_DNS, 'python.org')`. -/
theorem uuid5_matches_reference :
    uuid5 namespaceDNS "python.org" = "886313e1-3b8a-5372-9b90-0c9aee199e5d" := by
  decide

/-- Claim C1: in both the Remote (`_upload_chunks_qdrant`) and the
LocalFallback (`_upload_chunks_local`) path, the id sequence assigned to a
document's chunks is exactly `uuid5(NAMESPACE_URL, url ++ "#" ++ i)` for
`i = 0 .. n-1` — a deterministic function of `(url, index)` alone, so
re-ingesting an unchanged document reproduces identical ids and both
backends assign the same id to the same `(url, index)` pair. -/
theorem c1_point_ids {V : Type} (doc : Doc) (chunks : List String) (embeddings : List V)
    (buffer : List (Point V)) (h : chunks.length = embeddings.length) :
    ((upload_chunks_local doc chunks embeddings buffer).drop buffer.length).map Point.id
        = (List.range chunks.length).map
            (fun i => uuid5 namespaceURL (doc.url ++ "#" ++ toString i)) ∧
    (upload_chunks_qdrant doc chunks embeddings).map Point.id
        = (List.range chunks.length).map
            (fun i => uuid5 namespaceURL (doc.url ++ "#" ++ toString i)) := by
  have hz : (chunks.zip embeddings).length = chunks.length := by
    rw [List.length_zip]
    omega
  have key : (upload_chunks_qdrant doc chunks embeddings).map Point.id
      = (List.range chunks.length).map
          (fun i => uuid5 namespaceURL (doc.url ++ "#" ++ toString i)) := by
    rw [upload_chunks_qdrant, List.map_map, ← hz]
    exact map_enum_fst_fun (chunks.zip embeddings)
      (fun i => uuid5 namespaceURL (doc.url ++ "#" ++ toString i))
  refine ⟨?_, key⟩
  rw [upload_chunks_local, List.drop_left]
  exact key

/-- The document used as concrete input by several witnesses and
counterexamples. -/
def docA : Doc :=
  { url := "https://x/1", title := "Doc A", source := "FEMA",
    scraped_date := "2024-01-01", type := "guide",
    content := String.mk (List.replicate 60 'a') }

theorem c1_witness :
    ((["Store water and food."] : List String).length = ([[0]] : List (List Int)).length) ∧
    (((upload_chunks_local docA ["Store water and food."] ([[0]] : List (List Int)) []).drop
        ([] : List (Point (List Int))).length).map Point.id
        = (List.range (["Store water and food."] : List String).length).map
            (fun i => uuid5 namespaceURL (docA.url ++ "#" ++ toString i)) ∧
      (upload_chunks_qdrant docA ["Store water and food."] ([[0]] : List (List Int))).map
          Point.id
        = (List.range (["Store water and food."] : List String).length).map
            (fun i => uuid5 namespaceURL (docA.url ++ "#" ++ toString i))) :=
  ⟨rfl, c1_point_ids docA ["Store water and food."] [[0]] [] rfl⟩

/-- Claim C10: for a matching chunk/embedding list, both upload paths build
the same point list; its `chunk_index` payloads are exactly `0 .. n-1` in
chunk order, every payload's `total_chunks` is `n`, each payload's `content`
is the corresponding chunk text, and hence `chunk_index < total_chunks`
holds for every stored point. -/
theorem c10_payload_invariants {V : Type} (doc : Doc) (chunks : List String)
    (embeddings : List V) (buffer : List (Point V))
    (h : chunks.length = embeddings.length) :
    ((upload_chunks_local doc chunks embeddings buffer).drop buffer.length
        = upload_chunks_qdrant doc chunks embeddings) ∧
    (upload_chunks_qdrant doc chunks embeddings).map (fun p => p.payload.chunk_index)
        = List.range chunks.length ∧
    (upload_chunks_qdrant doc chunks embeddings).map (fun p => p.payload.content)
        = chunks ∧
    (∀ p ∈ upload_chunks_qdrant doc chunks embeddings,
      p.payload.total_chunks = chunks.length) ∧
    (∀ p ∈ upload_chunks_qdrant doc chunks embeddings,
      p.payload.chunk_index < p.payload.total_chunks) := by
  have hz : (chunks.zip embeddings).length = chunks.length := by
    rw [List.length_zip]
    omega
  have hidx : (upload_chunks_qdrant doc chunks embeddings).map
      (fun p => p.payload.chunk_index) = List.range chunks.length := by
    rw [upload_chunks_qdrant, List.map_map, ← hz]
    rw [show (List.range (chunks.zip embeddings).length)
        = (List.range (chunks.zip embeddings).length).map (fun i => i) by simp]
    exact map_enum_fst_fun (chunks.zip embeddings) (fun i => i)
  have htot : ∀ p ∈ upload_chunks_qdrant doc chunks embeddings,
      p.payload.total_chunks = chunks.length := by
    intro p hp
    obtain ⟨x, _, rfl⟩ := List.mem_map.mp hp
    rfl
  refine ⟨?_, hidx, ?_, htot, ?_⟩
  · rw [upload_chunks_local, List.drop_left, upload_chunks_qdrant]
  · rw [upload_chunks_qdrant, List.map_map]
    have h1 : ((chunks.zip embeddings).enum.map (fun p => p.2.1)) = chunks := by
      have h2 : ((chunks.zip embeddings).enum.map (fun p => p.2)).map (fun q => q.1)
          = chunks := by
        rw [List.enum_map_snd]
        exact List.map_fst_zip chunks embeddings (by omega)
      rw [List.map_map] at h2
      exact h2
    exact h1
  · intro p hp
    have hmem : p.payload.chunk_index ∈ (upload_chunks_qdrant doc chunks embeddings).map
        (fun q => q.payload.chunk_index) := List.mem_map_of_mem _ hp
    rw [hidx] at hmem
    rw [htot p hp]
    exact List.mem_range.mp hmem

theorem c10_witness :
    ((["Store water and food."] : List String).length = ([[0]] : List (List Int)).length) ∧
    (upload_chunks_qdrant docA ["Store water and food."] ([[0]] : List (List Int))).map
      (fun p => p.payload.chunk_index)
      = List.range (["Store water and food."] : List String).length :=
  ⟨rfl, (c10_payload_invariants docA ["Store water and food."] [[0]] [] rfl).2.1⟩

set_option maxRecDepth 10000 in
theorem c8_amended_witness :
    ((50 : Nat) < 500 ∧ t60.length < 500 ∧ (50 : Nat) ≤ 51) ∧
    (chunk_text t60 500 50
        = some (if 50 < (pyStrip t60.data).length
            then [String.mk (pyStrip t60.data)] else []) ∧
      ∀ l, chunk_text t60 500 50 = some l →
        l.length ≤ 1 ∧ (l = [] ↔ (pyStrip t60.data).length ≤ 50)) :=
  ⟨⟨by decide, by decide, by decide⟩,
    c8_amended t60 500 50 (by decide) (by decide) (by decide)⟩

/-! ## Claims about the ingestion pipeline -/

/-- A second document for the two-document corpus of claim C3. -/
def docB : Doc :=
  { url := "https://x/2", title := "Doc B", source := "CDC",
    scraped_date := "2024-01-01", type := "guide",
    content := String.mk (List.replicate 60 'b') }

/-- An embedding capability that is down: every call raises. -/
def embedFail : EmbedFn (List Int) := fun _ => .error "ModelUnavailable"

set_option maxRecDepth 10000 in
/-- Claim C3, counterexample: `docA` chunks successfully, the embedding call
for it raises, and the whole run returns that error — `docB` is never
processed, because `main` has no `try`/`except` around the per-document
body.  The claim said the pipeline would continue with the next document. -/
theorem c3_counterexample :
    chunk_text_default docA.content ≠ [] ∧
    ingest_loop embedFail [docA, docB] [] 0 = .error "ModelUnavailable" := by
  constructor
  · decide
  · rfl

/-- Claim C3 (amended): an embedding failure is not isolated — the raised
exception propagates out of the per-document loop and terminates the whole
run, leaving the remaining documents unprocessed.  What the loop does
isolate is a chunks/embeddings count mismatch, which aborts only that
document's upload (buffer unchanged) and continues with the rest. -/
theorem c3_amended {V : Type} (embed : EmbedFn V) (doc : Doc) (rest : List Doc)
    (buffer : List (Point V)) (total : Nat) :
    (∀ e, chunk_text_default doc.content ≠ [] →
      embed (chunk_text_default doc.content) = .error e →
      ingest_loop embed (doc :: rest) buffer total = .error e) ∧
    (∀ embs, chunk_text_default doc.content ≠ [] →
      embed (chunk_text_default doc.content) = .ok embs →
      (chunk_text_default doc.content).length ≠ embs.length →
      ingest_loop embed (doc :: rest) buffer total
        = ingest_loop embed rest buffer
            (total + (chunk_text_default doc.content).length)) := by
  constructor
  · intro e hne hemb
    rw [ingest_loop]
    simp only [hne, if_false, hemb]
  · intro embs hne hemb hmis
    rw [ingest_loop]
    simp only [hne, if_false, hemb, upload_chunks]
    rw [if_pos hmis]

set_option maxRecDepth 10000 in
theorem c3_amended_witness :
    (chunk_text_default docA.content ≠ [] ∧
      embedFail (chunk_text_default docA.content) = .error "ModelUnavailable") ∧
    ingest_loop embedFail (docA :: [docB]) [] 0 = .error "ModelUnavailable" :=
  ⟨⟨by decide, rfl⟩,
    (c3_amended embedFail docA [docB] [] 0).1 "ModelUnavailable" (by decide) rfl⟩

/-- A working embedding capability: one (opaque) vector per chunk. -/
def embedOK : EmbedFn (List Int) := fun texts => .ok (texts.map (fun _ => [0]))

set_option maxRecDepth 10000 in
/-- Claim C6, counterexample: a LocalFallback ingestion run over one
document upserts one point into the buffer, but `main` never calls
`save_local_storage`, so the file stays unwritten (`none`) and the run's
progress is lost on process exit.  The claim said the pipeline invokes
`persist()` after the run. -/
theorem c6_counterexample :
    (ingest_main embedOK [docA] ⟨[], none⟩).toOption.map
      (fun r => (r.1.embeddings_data.length, r.1.file, r.2)) = some (1, none, 1) := by
  rfl

/-- Claim C6 (amended): in LocalFallback mode upserted points accumulate in
the in-memory buffer; an explicit `save_local_storage` call writes a file
whose point count equals the buffer's point count (when the buffer is
non-empty); but `main` never invokes `save_local_storage`, so after the
ingestion run the file is exactly what it was before the run and the
accumulated points are lost on process exit. -/
theorem c6_amended {V : Type} :
    (∀ (doc : Doc) (chunks : List String) (embs : List V) (buffer : List (Point V)),
      chunks.length = embs.length →
      (upload_chunks doc chunks embs buffer).length = buffer.length + chunks.length) ∧
    (∀ s : LocalStore V, s.embeddings_data ≠ [] →
      (save_local_storage true s).file = some s.embeddings_data ∧
      (save_local_storage true s).file.map List.length = some s.embeddings_data.length) ∧
    (∀ (embed : EmbedFn V) (documents : List Doc) (s0 : LocalStore V) s total,
      ingest_main embed documents s0 = .ok (s, total) → s.file = s0.file) := by
  refine ⟨?_, ?_, ?_⟩
  · intro doc chunks embs buffer h
    rw [upload_chunks, if_neg (by omega), upload_chunks_local]
    simp only [List.length_append, List.length_map, List.enum_length, List.length_zip]
    omega
  · intro s hne
    obtain ⟨data, file⟩ := s
    cases data with
    | nil => exact absurd rfl hne
    | cons a t =>
      constructor
      · rw [save_local_storage]
        simp
      · rw [save_local_storage]
        simp
  · intro embed documents s0 s total hmain
    rw [ingest_main] at hmain
    cases hres : ingest_loop embed documents [] 0 with
    | error e =>
      rw [hres] at hmain
      cases hmain
    | ok r =>
      obtain ⟨buf, tot⟩ := r
      rw [hres] at hmain
      have h1 := Except.ok.inj hmain
      have h2 : s = { embeddings_data := buf, file := s0.file } :=
        (congrArg Prod.fst h1).symm
      rw [h2]

theorem c6_amended_witness :
    ((["Store water and food."] : List String).length = ([[0]] : List (List Int)).length) ∧
    (upload_chunks docA ["Store water and food."] ([[0]] : List (List Int)) []).length
      = ([] : List (Point (List Int))).length + (["Store water and food."] : List String).length :=
  ⟨rfl, (c6_amended (V := List Int)).1 docA ["Store water and food."] [[0]] [] rfl⟩

/-! ## Claims about the query side -/

/-- A Qdrant search stub that raises. -/
def searchBoom : List Int → Except String (List Hit) := fun _ => .error "connection refused"

/-- A Qdrant search stub that succeeds with zero hits. -/
def searchEmpty : List Int → Except String (List Hit) := fun _ => .ok []

/-- A configured LLM attribute that answers every prompt. -/
def llmOk : Option (Option LLMFn) := some (some (fun _ => .ok "an answer"))

/-- Claim C4, counterexample: a raised search exception is caught inside
`retrieve_context` and converted into the return value `[]`, and the query
flow then renders exactly the same "no relevant information" outcome as a
genuine empty search — the failure is not surfaced as the query's answer. -/
theorem c4_counterexample :
    (retrieve_context (.ok [0]) searchBoom).1 = [] ∧
    (retrieve_context (.ok [0]) searchEmpty).1 = [] ∧
    (query_flow (.ok [0]) searchBoom llmOk "q").1 = .noInfo ∧
    (query_flow (.ok [0]) searchEmpty llmOk "q").1 = .noInfo :=
  ⟨rfl, rfl, rfl, rfl⟩

/-- Claim C4 (amended): a failure while embedding the query or while
searching the store is caught by `retrieve_context`, which shows an
`st.error` banner (the side channel recorded in the second component) and
returns the empty context list; the main flow then renders the same
"no relevant information" outcome as a genuine empty result.  Only a
failure of the LLM call during generation is returned as the query's
answer text. -/
theorem c4_amended :
    (∀ e (search : List Int → Except String (List Hit)) llm q,
      retrieve_context (.error e) search = ([], ["Error retrieving context: " ++ e]) ∧
      (query_flow (.error e) search llm q).1 = .noInfo) ∧
    (∀ v e llm q (search : List Int → Except String (List Hit)), search v = .error e →
      retrieve_context (.ok v) search = ([], ["Error retrieving context: " ++ e]) ∧
      (query_flow (.ok v) search llm q).1 = .noInfo) ∧
    (∀ (invoke : LLMFn) q ctxs e, invoke (build_prompt q ctxs) = .error e →
      generate_response (some (some invoke)) q ctxs
        = .ok ("Error generating response: " ++ e)) := by
  refine ⟨?_, ?_, ?_⟩
  · intro e search llm q
    exact ⟨rfl, rfl⟩
  · intro v e llm q search hs
    constructor
    · rw [retrieve_context, hs]
    · rw [query_flow, retrieve_context, hs]
      rfl
  · intro invoke q ctxs e hinv
    rw [generate_response, hinv]

theorem c4_amended_witness :
    searchBoom [0] = .error "connection refused" ∧
    (retrieve_context (.ok [0]) searchBoom
        = ([], ["Error retrieving context: " ++ "connection refused"]) ∧
      (query_flow (.ok [0]) searchBoom llmOk "q").1 = .noInfo) :=
  ⟨rfl, c4_amended.2.1 [0] "connection refused" llmOk "q" searchBoom rfl⟩

/-- The stub `ChatGroq` constructor used to instantiate the app model. -/
def mkLLMStub : String → LLMFn := fun _key _prompt => .ok "llm reply"

/-- Claim C5 (a bug in the code): with no usable `GROQ_API_KEY`,
`setup_clients` takes the error branch and never assigns `self.llm`
(`__init__` only sets `groq_client = None`, not `llm`), so
`generate_response`'s guard `if not self.llm` raises `AttributeError`
instead of returning the configuration-error message the claim (and the
guard's own message) intends. -/
theorem c5_llm_attribute_missing :
    setup_clients mkLLMStub none = none ∧
    setup_clients mkLLMStub (some "") = none ∧
    setup_clients mkLLMStub (some "your_groq_api_key_here") = none ∧
    ∀ q ctxs, generate_response (setup_clients mkLLMStub none) q ctxs
      = .error "AttributeError: 'DisasterRAGApp' object has no attribute 'llm'" := by
  refine ⟨rfl, ?_, ?_, fun q ctxs => rfl⟩
  · rw [setup_clients, if_neg]
    simp
  · rw [setup_clients, if_neg]
    simp
